import Mathlib

/-!
Shallow embedding of the hard_hat_ai backend (FastAPI + Claude wrapper) used to
check the natural-language specification against the code.

Source files embedded:
- src/backend/app/services/claude_client.py   (stream_completion retry loop,
  calculate_confidence)
- src/backend/app/routers/contract_hawk.py    (parse_risk_analysis_response,
  analyze_contract.generate_stream terminal event)
- src/backend/app/routers/submittal_scrubber.py (parse_compliance_response,
  compare_submittals.generate_stream terminal event)
- src/backend/app/routers/lookahead_builder.py (parse_schedule_response,
  generate_schedule.generate_stream terminal event)
- src/backend/app/routers/code_commander.py   (extract_citations_from_response)
- src/backend/app/services/pdf_processor.py   (PDFProcessor.extract_text)
- src/backend/app/services/vision_client.py   (compress_image / encode_image
  temp-file lifecycle)
- src/backend/app/utils/file_cleanup.py       (TemporaryFile context manager)

Machine strings are Lean `String`s (Python `str`; all inputs considered are
ASCII so `len`, `lower`, `strip` agree).  Python dicts that the code builds and
reads with `.get` are embedded as ordered association lists with a last-wins
lookup, matching dict insertion/overwrite semantics.  `json.loads` is embedded
by an executable recursive-descent JSON parser (`jsonParse`); its numeric
literals are restricted to integers (no fraction/exponent forms appear in any
reply text considered here), and string escapes cover the common single
character escapes.
-/

/-! ## Basic string helpers (Python semantics) -/

/-- Python whitespace for `str.strip` / `str.split()` (ASCII). -/
def isPySpace (c : Char) : Bool :=
  c = ' ' || c = '\t' || c = '\n' || c = '\x0d' || c = '\x0c' || c = '\x0b'

/-- Lowercase a character (ASCII, as Python `str.lower` on ASCII input). -/
def pyLowerChar (c : Char) : Char :=
  if 'A' ≤ c ∧ c ≤ 'Z' then Char.ofNat (c.toNat + 32) else c

/-- Python `s.lower()` on a character list. -/
def pyLowerList (cs : List Char) : List Char := cs.map pyLowerChar

/-- Python `s.lower()`. -/
def pyLower (s : String) : String := ⟨pyLowerList s.data⟩

/-- Drop leading Python whitespace. -/
def dropLeftWs : List Char → List Char
  | [] => []
  | c :: cs => if isPySpace c then dropLeftWs cs else c :: cs

/-- Python `s.strip()`. -/
def pyStrip (s : String) : String :=
  ⟨((dropLeftWs s.data.reverse).reverse |> dropLeftWs)⟩

/-- Python substring membership `needle in haystack` on character lists. -/
def listContains (needle : List Char) : List Char → Bool
  | [] => needle.isEmpty
  | c :: cs => needle.isPrefixOf (c :: cs) || listContains needle cs

/-- Python `needle in haystack` for strings. -/
def strContains (haystack needle : String) : Bool :=
  listContains needle.data haystack.data

/-- Index of the first position (from `i`) where `needle` starts in `cs`,
Python `haystack.find(needle)` (here always with a nonempty needle). -/
def listFindSub (needle : List Char) : List Char → Nat → Option Nat
  | [], i => if needle.isEmpty then some i else none
  | c :: cs, i =>
    if needle.isPrefixOf (c :: cs) then some i else listFindSub needle cs (i + 1)

/-- Python `haystack.find(needle)` returning an index option
(`-1` in Python is `none` here). -/
def strFind (haystack needle : String) : Option Nat :=
  listFindSub needle.data haystack.data 0

/-- Python `s[:n]` (take the first `n` characters). -/
def strTake (s : String) (n : Nat) : String := ⟨s.data.take n⟩

/-- Python `s[i:]`. -/
def strDrop (s : String) (n : Nat) : String := ⟨s.data.drop n⟩

/-- Python `s[i:j]`. -/
def strSlice (s : String) (i j : Nat) : String := ⟨(s.data.take j).drop i⟩

/-- Python `len(s)` (character count). -/
def strLen (s : String) : Nat := s.data.length

/-! ## JSON values and `json.loads` -/

/-- JSON value as produced by Python `json.loads`.  Objects keep member order;
duplicate keys are resolved last-wins by `Json.get`, as Python dicts do.
Numeric literals are modelled as integers (see the file header). -/
inductive Json : Type
  | null : Json
  | bool : Bool → Json
  | num : Int → Json
  | str : String → Json
  | arr : List Json → Json
  | obj : List (String × Json) → Json

/-- Last-wins lookup in a JSON object member list (Python dict lookup). -/
def jGet (fields : List (String × Json)) (k : String) : Option Json :=
  (fields.reverse.find? (fun p => p.1 = k)).map (·.2)

/-- JSON insignificant whitespace (space, tab, newline, carriage return). -/
def isJsonWs (c : Char) : Bool :=
  c = ' ' || c = '\t' || c = '\n' || c = '\x0d'

/-- Skip JSON whitespace. -/
def skipJsonWs : List Char → List Char
  | [] => []
  | c :: cs => if isJsonWs c then skipJsonWs cs else c :: cs

/-- Value of a digit-character list read as a decimal number. -/
def digitsVal (ds : List Char) : Nat :=
  ds.foldl (fun acc c => acc * 10 + (c.toNat - 48)) 0

/-- Split off the maximal leading digit run. -/
def spanDigits : List Char → List Char × List Char
  | [] => ([], [])
  | c :: cs =>
    if c.isDigit then
      let (ds, rest) := spanDigits cs
      (c :: ds, rest)
    else ([], c :: cs)

/-- Parse the body of a JSON string literal after the opening quote, handling
the single-character escapes; returns the content and the rest after the
closing quote. -/
def parseJsonStr : List Char → Option (List Char × List Char)
  | [] => none
  | '"' :: cs => some ([], cs)
  | '\\' :: e :: cs =>
    let esc : Option Char :=
      if e = '"' ∨ e = '\\' ∨ e = '/' then some e
      else if e = 'n' then some '\n'
      else if e = 't' then some '\t'
      else if e = 'r' then some '\x0d'
      else if e = 'b' then some '\x08'
      else if e = 'f' then some '\x0c'
      else none
    match esc with
    | some c =>
      match parseJsonStr cs with
      | some (body, rest) => some (c :: body, rest)
      | none => none
    | none => none
  | c :: cs =>
    match parseJsonStr cs with
    | some (body, rest) => some (c :: body, rest)
    | none => none

mutual

/-- Recursive-descent JSON value parser (embedding of `json.loads` on the
grammar this repository's replies use); `fuel` bounds recursion depth. -/
def parseJsonVal : Nat → List Char → Option (Json × List Char)
  | 0, _ => none
  | fuel + 1, cs =>
    match skipJsonWs cs with
    | [] => none
    | '{' :: rest => parseJsonObj fuel (skipJsonWs rest) true []
    | '[' :: rest => parseJsonArr fuel (skipJsonWs rest) true []
    | '"' :: rest =>
      match parseJsonStr rest with
      | some (body, rest2) => some (Json.str ⟨body⟩, rest2)
      | none => none
    | 't' :: rest =>
      if ['r', 'u', 'e'].isPrefixOf rest then
        some (Json.bool true, rest.drop 3)
      else none
    | 'f' :: rest =>
      if ['a', 'l', 's', 'e'].isPrefixOf rest then
        some (Json.bool false, rest.drop 4)
      else none
    | 'n' :: rest =>
      if ['u', 'l', 'l'].isPrefixOf rest then
        some (Json.null, rest.drop 3)
      else none
    | '-' :: rest =>
      match spanDigits rest with
      | ([], _) => none
      | (ds, rest2) =>
        match rest2 with
        | '.' :: _ => none  -- fraction forms not modelled
        | 'e' :: _ => none
        | 'E' :: _ => none
        | _ => some (Json.num (-(digitsVal ds : Int)), rest2)
    | c :: rest =>
      if c.isDigit then
        match spanDigits (c :: rest) with
        | (ds, rest2) =>
          match rest2 with
          | '.' :: _ => none
          | 'e' :: _ => none
          | 'E' :: _ => none
          | _ => some (Json.num (digitsVal ds : Int), rest2)
      else none

/-- Parse object members after `{` (whitespace already skipped);
`first` is true before the first member. -/
def parseJsonObj (fuel : Nat) (cs : List Char) (first : Bool)
    (acc : List (String × Json)) : Option (Json × List Char) :=
  match fuel, cs with
  | _, '}' :: rest =>
    if first then some (Json.obj acc.reverse, rest) else none
  | 0, _ => none
  | fuel + 1, cs =>
    let cs := if first then cs else
      match cs with
      | ',' :: rest => skipJsonWs rest
      | _ => []  -- forced failure: a later member must follow a comma
    match cs with
    | '"' :: rest =>
      match parseJsonStr rest with
      | some (key, rest2) =>
        match skipJsonWs rest2 with
        | ':' :: rest3 =>
          match parseJsonVal fuel rest3 with
          | some (v, rest4) =>
            match skipJsonWs rest4 with
            | '}' :: rest5 => some (Json.obj ((⟨key⟩, v) :: acc).reverse, rest5)
            | ',' :: rest5 =>
              parseJsonObj fuel (',' :: rest5) false ((⟨key⟩, v) :: acc)
            | _ => none
          | none => none
        | _ => none
      | none => none
    | _ => none

/-- Parse array elements after `[` (whitespace already skipped). -/
def parseJsonArr (fuel : Nat) (cs : List Char) (first : Bool)
    (acc : List Json) : Option (Json × List Char) :=
  match fuel, cs with
  | _, ']' :: rest =>
    if first then some (Json.arr acc.reverse, rest) else none
  | 0, _ => none
  | fuel + 1, cs =>
    let cs := if first then cs else
      match cs with
      | ',' :: rest => skipJsonWs rest
      | _ => []
    match parseJsonVal fuel cs with
    | some (v, rest) =>
      match skipJsonWs rest with
      | ']' :: rest2 => some (Json.arr (v :: acc).reverse, rest2)
      | ',' :: rest2 => parseJsonArr fuel (',' :: rest2) false (v :: acc)
      | _ => none
    | none => none

end

/-- Embedding of Python `json.loads`: parse the whole string, rejecting
trailing non-whitespace (json raises "Extra data" there). -/
def jsonParse (s : String) : Option Json :=
  match parseJsonVal (s.data.length + 1) s.data with
  | some (v, rest) =>
    match skipJsonWs rest with
    | [] => some v
    | _ => none
  | none => none

/-! ## Regex-based JSON candidate selection

Embeddings of the concrete `re` patterns the routers use.  Each is modelled
with Python's leftmost-start, backtracking semantics for that specific
pattern. -/

/-- Scan for the closing part of the fenced-block capture: the non-greedy
body runs to the first closing brace that is followed by optional whitespace
and three backticks (pattern fragment of the shared
regex that finds a fenced code block).  `acc` holds the
capture so far, reversed. -/
def fencedClose : List Char → List Char → Option (List Char)
  | [], _ => none
  | c :: cs, acc =>
    if c = '}' then
      if ['`', '`', '`'].isPrefixOf (dropLeftWs cs) then some ((c :: acc).reverse)
      else fencedClose cs (c :: acc)
    else fencedClose cs (c :: acc)

/-- Match the fenced-block regex body right after the opening backticks and
optional `json` tag: skip whitespace, require an opening brace, then take the
non-greedy brace body up to the closing fence. -/
def fencedBody (t : List Char) : Option (List Char) :=
  match dropLeftWs t with
  | '{' :: rest => fencedClose rest ['{']
  | _ => none

/-- Leftmost match of the shared fenced-block regex (a triple-backtick fence,
optional `json` tag, whitespace, then a non-greedy braced body closed by a
fence); returns the captured group. -/
def fencedSearch : List Char → Option (List Char)
  | [] => none
  | c :: cs =>
    if ['`', '`', '`'].isPrefixOf (c :: cs) then
      let t := (c :: cs).drop 3
      let withTag : Option (List Char) :=
        if ['j', 's', 'o', 'n'].isPrefixOf t then fencedBody (t.drop 4) else none
      match withTag with
      | some g => some g
      | none =>
        match fencedBody t with
        | some g => some g
        | none => fencedSearch cs
    else fencedSearch cs

/-- Group 1 of `re.search` for the shared markdown fenced JSON block pattern
(used by all three structured-response parsers as strategy 1). -/
def fencedJsonBlock (s : String) : Option String :=
  (fencedSearch s.data).map (fun g => ⟨g⟩)

/-- Indices (ascending) at which the predicate holds of the tail starting
there. -/
def idxsWhere (p : List Char → Bool) : List Char → Nat → List Nat
  | [], _ => []
  | c :: cs, i =>
    (if p (c :: cs) then [i] else []) ++ idxsWhere p cs (i + 1)

/-- Greedy `re.search` for contract_hawk strategy 2: a brace, anything, the
quoted key `risks`, anything, a closing brace (DOTALL, greedy both sides).
Returns the whole match: from the first feasible opening brace to the last
closing brace lying after a feasible anchor occurrence. -/
def risksSpan (s : String) : Option String :=
  let cs := s.data
  let anchor : List Char := '"' :: ('r' :: 'i' :: 's' :: 'k' :: 's' :: ['"'])
  let opens := idxsWhere (fun t => t.head? = some '{') cs 0
  let closes := idxsWhere (fun t => t.head? = some '}') cs 0
  let anchors := idxsWhere (fun t => anchor.isPrefixOf t) cs 0
  match opens.find? (fun i =>
      anchors.any (fun o => decide (i + 1 ≤ o) &&
        closes.any (fun j => decide (o + 7 ≤ j)))) with
  | none => none
  | some i0 =>
    let js := closes.filter (fun j =>
      anchors.any (fun o => decide (i0 + 1 ≤ o) && decide (o + 7 ≤ j)))
    match js.getLast? with
    | some j0 => some (strSlice s i0 (j0 + 1))
    | none => none

/-- Non-greedy `re.search` for submittal_scrubber strategy 2: a brace,
a lazily-matched span, the quoted key `compliance_items`, a lazily-matched
span, a closing brace (DOTALL).  The anchor literal is 18 characters long
with its quotes.  Returns the leftmost-start, shortest match. -/
def complianceSpan (s : String) : Option String :=
  let cs := s.data
  let anchor : List Char := '"' :: "compliance_items".data ++ ['"']
  let opens := idxsWhere (fun t => t.head? = some '{') cs 0
  let closes := idxsWhere (fun t => t.head? = some '}') cs 0
  let anchors := idxsWhere (fun t => anchor.isPrefixOf t) cs 0
  match opens.find? (fun i =>
      anchors.any (fun o => decide (i + 1 ≤ o) &&
        closes.any (fun j => decide (o + 18 ≤ j)))) with
  | none => none
  | some i0 =>
    match anchors.find? (fun o => decide (i0 + 1 ≤ o) &&
        closes.any (fun j => decide (o + 18 ≤ j))) with
    | none => none
    | some o1 =>
      match closes.find? (fun j => decide (o1 + 18 ≤ j)) with
      | none => none
      | some j1 => some (strSlice s i0 (j1 + 1))

/-- Brace-counting scan used by the parsers' strategy of locating the first
balanced braced span: starting at an opening brace, count nested braces until
balance returns to zero; returns the index one past the matching close
(Python `brace_end`). -/
def braceScan : List Char → Int → Nat → Option Nat
  | [], _, _ => none
  | c :: cs, count, i =>
    if c = '{' then braceScan cs (count + 1) (i + 1)
    else if c = '}' then
      if count - 1 = 0 then some (i + 1) else braceScan cs (count - 1) (i + 1)
    else braceScan cs count (i + 1)

/-- Balanced braced span of `s` starting at index `bs` (which the callers
ensure holds an opening brace); `none` when the braces never rebalance,
modelling Python's `brace_end` staying equal to `brace_start`. -/
def braceSpanFrom (s : String) (bs : Nat) : Option String :=
  match braceScan (s.data.drop bs) 0 bs with
  | some be => some (strSlice s bs be)
  | none => none

/-- Python `haystack.rfind(needle_char, 0, stop)`: last index before `stop`
holding the character. -/
def rfindCharBefore (s : String) (c : Char) (stop : Nat) : Option Nat :=
  ((idxsWhere (fun t => t.head? = some c) s.data 0).filter
    (fun i => decide (i < stop))).getLast?

/-! ## Python dict embedding -/

/-- Python dict built by the parsers and relays: ordered key/value pairs. -/
abbrev PyDict := List (String × Json)

/-- Python `d.get(k)` (default `None` handled by the caller via `Option`). -/
def dget (d : PyDict) (k : String) : Option Json := jGet d k

/-- Python `d.get(k, default)`. -/
def dgetD (d : PyDict) (k : String) (v : Json) : Json := (dget d k).getD v

/-! ## contract_hawk.parse_risk_analysis_response -/

/-- Candidate JSON text selected by `parse_risk_analysis_response`:
fenced block first, then the greedy `risks`-anchored span, then the whole
reply.  Exactly one candidate is chosen; only one structured parse is
attempted on it. -/
def riskJsonCandidate (s : String) : String :=
  match fencedJsonBlock s with
  | some g => g
  | none =>
    match risksSpan s with
    | some g => g
    | none => s

/-- Python `int(x)` on a stripped decimal string, `none` when `int` raises. -/
def pyIntOfStr (s : String) : Option Int :=
  let toVal : List Char → Option Nat := fun ds =>
    if ds.isEmpty || !(ds.all Char.isDigit) then none else some (digitsVal ds)
  match (pyStrip s).data with
  | '-' :: ds => (toVal ds).map (fun n => -(n : Int))
  | '+' :: ds => (toVal ds).map (fun n => (n : Int))
  | ds => (toVal ds).map (fun n => (n : Int))

/-- Python `int(x)` on a parsed JSON value; `none` models the raised
`TypeError`/`ValueError` (caught by the parser's outer `except`). -/
def pyInt : Json → Option Int
  | Json.num n => some n
  | Json.bool b => some (if b then 1 else 0)
  | Json.str s => pyIntOfStr s
  | _ => none

/-- Loop body of the risk-item validation: items that are dicts with the
three required keys are kept with severity clamped by
`max(1, min(5, int(...)))`; other items are skipped; a failing `int()`
raises, modelled as `none` for the whole list. -/
def extractRisks : List Json → Option (List Json)
  | [] => some []
  | item :: rest =>
    match item with
    | Json.obj f =>
      if (jGet f "clause").isSome && (jGet f "severity").isSome &&
          (jGet f "explanation").isSome then
        match pyInt ((jGet f "severity").getD (Json.num 3)) with
        | none => none
        | some n =>
          match extractRisks rest with
          | none => none
          | some tail =>
            some (Json.obj [("clause", (jGet f "clause").getD (Json.str "")),
              ("severity", Json.num (max 1 (min 5 n))),
              ("explanation", (jGet f "explanation").getD (Json.str ""))] :: tail)
      else extractRisks rest
    | _ => extractRisks rest

/-- Failure dict of the `json.JSONDecodeError` branch of
`parse_risk_analysis_response`. -/
def riskFailDict (reply : String) : PyDict :=
  [("risks", Json.arr []),
   ("summary", Json.str ("Unable to parse structured response. Raw analysis: "
      ++ strTake reply 500)),
   ("success", Json.bool false),
   ("raw_response", Json.str reply)]

/-- Failure dict of the generic `except Exception` branch of
`parse_risk_analysis_response` (its summary embeds `str(e)`; the exact
exception text is abstracted to a fixed message here). -/
def riskExnDict (reply : String) : PyDict :=
  [("risks", Json.arr []),
   ("summary", Json.str "Error parsing response: unexpected structure"),
   ("success", Json.bool false),
   ("raw_response", Json.str reply)]

/-- Success dict of `parse_risk_analysis_response`. -/
def riskOkDict (fields : PyDict) (risks : List Json) : PyDict :=
  [("risks", Json.arr risks),
   ("summary", (jGet fields "summary").getD (Json.str "Risk analysis completed.")),
   ("success", Json.bool true)]

/-- Embedding of `parse_risk_analysis_response` (contract_hawk.py): select one
candidate, run one structured parse, then validate/clamp risk items; never
raises past this boundary.  A parsed non-dict value makes the Python body
raise a `TypeError`/`AttributeError`, landing in the `except Exception`
branch. -/
def parse_risk_analysis_response (reply : String) : PyDict :=
  match jsonParse (riskJsonCandidate reply) with
  | none => riskFailDict reply
  | some (Json.obj fields) =>
    match jGet fields "risks" with
    | some (Json.arr items) =>
      match extractRisks items with
      | none => riskExnDict reply
      | some risks => riskOkDict fields risks
    | _ => riskOkDict fields []
  | some _ => riskExnDict reply

/-! ## submittal_scrubber.parse_compliance_response -/

/-- Candidate JSON text selected by `parse_compliance_response`: fenced block,
then the lazy `compliance_items`-anchored span, then the first balanced braced
span, then the anchored `rfind` fallback, then the whole reply. -/
def complianceJsonCandidate (s : String) : String :=
  match fencedJsonBlock s with
  | some g => g
  | none =>
    match complianceSpan s with
    | some g => g
    | none =>
      match strFind s "\x7b" with
      | some bs =>
        match braceSpanFrom s bs with
        | some g => g
        | none =>
          match strFind s "\"compliance_items\"" with
          | some ci =>
            match rfindCharBefore s '{' ci with
            | some bs2 =>
              match braceSpanFrom s bs2 with
              | some g => g
              | none => strDrop s bs2
            | none => s
          | none => s
      | none => s

/-- Normalization of a compliance status already outside
`["pass", "warn", "fail"]` and already lowercased: substring checks in the
code's priority order, defaulting to `warn`. -/
def normStatus (st : String) : String :=
  if st = "pass" || st = "warn" || st = "fail" then st
  else if strContains st "pass" || strContains st "meet" then "pass"
  else if strContains st "warn" || strContains st "partial" ||
      strContains st "unclear" then "warn"
  else if strContains st "fail" || strContains st "not" then "fail"
  else "warn"

/-- Loop body of the compliance-item validation; a non-string status makes
`.lower()` raise, modelled as `none` for the whole list. -/
def extractCompliance : List Json → Option (List Json)
  | [] => some []
  | item :: rest =>
    match item with
    | Json.obj f =>
      if (jGet f "requirement").isSome && (jGet f "status").isSome then
        match (jGet f "status").getD (Json.str "") with
        | Json.str s =>
          match extractCompliance rest with
          | none => none
          | some tail =>
            some (Json.obj
              [("requirement", (jGet f "requirement").getD (Json.str "")),
               ("spec_text", (jGet f "spec_text").getD (Json.str "")),
               ("product_text", (jGet f "product_text").getD (Json.str "")),
               ("status", Json.str (normStatus (pyLower s))),
               ("notes", (jGet f "notes").getD Json.null)] :: tail)
        | _ => none
      else extractCompliance rest
    | _ => extractCompliance rest

/-- Failure dict of the `json.JSONDecodeError` branch of
`parse_compliance_response`. -/
def complianceFailDict (reply : String) : PyDict :=
  [("compliance_items", Json.arr []),
   ("summary", Json.str ("Unable to parse structured response. Raw analysis: "
      ++ strTake reply 500)),
   ("success", Json.bool false),
   ("raw_response", Json.str reply)]

/-- Failure dict of the generic `except Exception` branch of
`parse_compliance_response` (exception text abstracted). -/
def complianceExnDict (reply : String) : PyDict :=
  [("compliance_items", Json.arr []),
   ("summary", Json.str "Error parsing response: unexpected structure"),
   ("success", Json.bool false),
   ("raw_response", Json.str reply)]

/-- Success dict of `parse_compliance_response`. -/
def complianceOkDict (fields : PyDict) (items : List Json) : PyDict :=
  [("compliance_items", Json.arr items),
   ("summary",
     (jGet fields "summary").getD (Json.str "Compliance analysis completed.")),
   ("success", Json.bool true)]

/-- Embedding of `parse_compliance_response` (submittal_scrubber.py). -/
def parse_compliance_response (reply : String) : PyDict :=
  match jsonParse (complianceJsonCandidate reply) with
  | none => complianceFailDict reply
  | some (Json.obj fields) =>
    match jGet fields "compliance_items" with
    | some (Json.arr items) =>
      match extractCompliance items with
      | none => complianceExnDict reply
      | some out => complianceOkDict fields out
    | _ => complianceOkDict fields []
  | some _ => complianceExnDict reply

/-! ## lookahead_builder.parse_schedule_response -/

/-- Candidate JSON text selected by `parse_schedule_response`: fenced block,
then the first balanced braced span (or the tail from the first open brace
when unbalanced), then the whole reply. -/
def scheduleJsonCandidate (s : String) : String :=
  match fencedJsonBlock s with
  | some g => g
  | none =>
    match strFind s "\x7b" with
    | some bs =>
      match braceSpanFrom s bs with
      | some g => g
      | none => strDrop s bs
    | none => s

/-- Embedding of `parse_schedule_response` (lookahead_builder.py); the
`JSONDecodeError` message text is abstracted. -/
def parse_schedule_response (reply : String) : PyDict :=
  match jsonParse (scheduleJsonCandidate reply) with
  | some j => [("success", Json.bool true), ("data", j)]
  | none =>
    [("success", Json.bool false),
     ("error", Json.str "JSON parsing error: invalid JSON"),
     ("raw_response", Json.str (strTake reply 1000))]

/-! ## claude_client.ClaudeClient -/

/-- Uncertainty-indicator word list of `calculate_confidence`. -/
def uncertainty_words : List String :=
  ["might", "maybe", "perhaps", "possibly", "uncertain",
   "unclear", "not sure", "could be", "seems", "appears"]

/-- Qualifier-phrase list of `calculate_confidence`. -/
def qualifier_phrases : List String :=
  ["I think", "I believe", "in my opinion", "it seems",
   "it appears", "probably", "likely"]

/-- Combined hedge score: each listed word or phrase contributes 1 when it
occurs (case-insensitive substring) in the reply. -/
def uncertainty_score (response_text : String) : Nat :=
  let low := pyLower response_text
  uncertainty_words.countP (fun w => strContains low (pyLower w)) +
    qualifier_phrases.countP (fun w => strContains low (pyLower w))

/-- Embedding of `ClaudeClient.calculate_confidence` (claude_client.py). -/
def calculate_confidence (response_text : String) : String :=
  if response_text = "" || strLen (pyStrip response_text) < 10 then "Low"
  else if uncertainty_score response_text = 0 && strLen response_text > 100 then
    "High"
  else if uncertainty_score response_text ≤ 2 then "Med"
  else "Low"

/-- Outcome of one upstream attempt inside `stream_completion`: success, a
429 rate limit, a 5xx server error, another (non-retryable) `APIError`, or a
generic exception (transport failure). -/
inductive ApiKind : Type
  | ok : ApiKind
  | rate : ApiKind
  | server : ApiKind
  | client : ApiKind
  | other : ApiKind

/-- Observable behaviour of one `stream_completion` call: the fragments
yielded to the caller in order, the back-off sleeps performed (seconds, in
order), the exception message finally raised (if any), and the number of
attempts made. -/
structure RunResult : Type where
  yields : List String
  waits : List Nat
  err : Option String
  attempts : Nat

def rateLimitMsg : String := "Rate limit exceeded. Please try again later."

def serverErrMsg : String := "Claude API server error. Please try again later."

/-- Non-retryable `APIError` message (the embedded `e.message` is abstracted). -/
def clientErrMsg : String := "API error: upstream client error"

/-- Final generic-exception message (the embedded `str(e)` is abstracted). -/
def transportMsg : String := "Error communicating with Claude API: transport failure"

/-- Retry loop of `stream_completion`: `fuel` is the number of attempts still
available (the loop starts with `max_retries`), `a` the current attempt index,
`d` the Python local `delay`.  The environment `outs` gives, per attempt, the
fragments the upstream stream yields before the attempt's outcome.  A retry is
allowed only while `attempt < max_retries - 1`, i.e. while `fuel > 1`. -/
def runAux (outs : Nat → List String × ApiKind) :
    Nat → Nat → Nat → RunResult
  | 0, _, _ => ⟨[], [], none, 0⟩
  | fuel + 1, a, d =>
    let frags := (outs a).1
    match (outs a).2 with
    | ApiKind.ok => ⟨frags, [], none, 1⟩
    | ApiKind.client => ⟨frags, [], some clientErrMsg, 1⟩
    | ApiKind.rate =>
      if fuel = 0 then ⟨frags, [], some rateLimitMsg, 1⟩
      else
        let w := d * 2 ^ a
        let rest := runAux outs fuel (a + 1) (min (w * 2) 60)
        ⟨frags ++ rest.yields, w :: rest.waits, rest.err, rest.attempts + 1⟩
    | ApiKind.server =>
      if fuel = 0 then ⟨frags, [], some serverErrMsg, 1⟩
      else
        let w := d * 2 ^ a
        let rest := runAux outs fuel (a + 1) d
        ⟨frags ++ rest.yields, w :: rest.waits, rest.err, rest.attempts + 1⟩
    | ApiKind.other =>
      if fuel = 0 then ⟨frags, [], some transportMsg, 1⟩
      else
        let w := d * 2 ^ a
        let rest := runAux outs fuel (a + 1) d
        ⟨frags ++ rest.yields, w :: rest.waits, rest.err, rest.attempts + 1⟩

/-- Embedding of `ClaudeClient.max_retries`. -/
def max_retries : Nat := 3

/-- Embedding of `ClaudeClient.base_delay` (1.0 seconds; the delays arising in the loop
are exact small integers, so they are embedded as naturals). -/
def base_delay : Nat := 1

/-- Embedding of `ClaudeClient.stream_completion` (claude_client.py) as a
function of the per-attempt upstream outcomes. -/
def stream_completion (outs : Nat → List String × ApiKind) : RunResult :=
  runAux outs max_retries 0 base_delay

/-! ## Terminal SSE events of the stream relays -/

/-- Terminal `complete` event of `analyze_contract.generate_stream`
(contract_hawk.py, the `json.dumps` payload of the final SSE message);
`parsed_data.get('overall_risk_level')` with no default serializes `None`
as JSON `null`. -/
def contractTerminalEvent (full_response : String) : PyDict :=
  let parsed := parse_risk_analysis_response full_response
  [("type", Json.str "complete"),
   ("confidence", Json.str (calculate_confidence full_response)),
   ("risks", dgetD parsed "risks" (Json.arr [])),
   ("overall_risk_level", dgetD parsed "overall_risk_level" Json.null),
   ("summary", dgetD parsed "summary" (Json.str "")),
   ("success", dgetD parsed "success" (Json.bool true))]

/-- Terminal `complete` event of `compare_submittals.generate_stream`
(submittal_scrubber.py). -/
def submittalTerminalEvent (full_response : String) : PyDict :=
  let parsed := parse_compliance_response full_response
  [("type", Json.str "complete"),
   ("confidence", Json.str (calculate_confidence full_response)),
   ("compliance_items", dgetD parsed "compliance_items" (Json.arr [])),
   ("summary", dgetD parsed "summary" (Json.str "")),
   ("success", dgetD parsed "success" (Json.bool true))]

/-- Terminal event of `generate_schedule.generate_stream`
(lookahead_builder.py) once the vision stream has been consumed without an
upstream error: an empty reply or a failed parse yields an `error` event, a
successful parse a `complete` event. -/
def lookaheadTerminalEvent (full_response : String) : PyDict :=
  if full_response = "" then
    [("type", Json.str "error"),
     ("message", Json.str "No response from vision API")]
  else
    match dget (parse_schedule_response full_response) "success" with
    | some (Json.bool true) =>
      [("type", Json.str "complete"),
       ("confidence", Json.str (calculate_confidence full_response)),
       ("schedule_data",
         dgetD (parse_schedule_response full_response) "data" (Json.obj []))]
    | _ =>
      [("type", Json.str "error"),
       ("message",
         dgetD (parse_schedule_response full_response) "error"
           (Json.str "Failed to parse response")),
       ("raw_preview", Json.str (strTake full_response 500))]

/-! ## pdf_processor.PDFProcessor.extract_text -/

/-- Result dict of `PDFProcessor.extract_text`.  The document is embedded as
the list of its page texts (0-indexed internally, as PyMuPDF stores pages). -/
structure ExtractResult : Type where
  success : Bool
  text : String
  page_texts : List (Nat × String)
  total_pages : Nat
  pages_extracted : Nat

/-- Lookup in the `page_number -> text` dict (last-wins, Python dict). -/
def ptGet (l : List (Nat × String)) (k : Nat) : Option String :=
  (l.reverse.find? (fun q => q.1 = k)).map (·.2)

/-- Embedding of `PDFProcessor.extract_text` (pdf_processor.py): an optional
1-indexed page range is filtered to in-range pages (out-of-range entries are
silently dropped), converted to 0-indexed storage indices, and the output map
is re-keyed 1-indexed. -/
def extract_text (doc : List String) (page_range : Option (List Int)) :
    ExtractResult :=
  let total := doc.length
  let pages_to_extract : List Nat :=
    match page_range with
    | some r =>
      r.filterMap (fun p =>
        if 1 ≤ p ∧ p ≤ (total : Int) then some (p - 1).toNat else none)
    | none => List.range total
  let texts := pages_to_extract.map (fun i => (doc.get? i).getD "")
  { success := true
    text := String.intercalate "\n\n" texts
    page_texts := pages_to_extract.map (fun i => (i + 1, (doc.get? i).getD ""))
    total_pages := total
    pages_extracted := pages_to_extract.length }

/-! ## vision_client temp-file lifecycle (compress_image / encode_image)

The filesystem is embedded as the list of existing file paths; `mkstemp`
prepends the new path, `os.unlink` removes it.  The PIL behaviour of one
request is abstracted into an `ImageCase`: the original file size, whether
opening/processing the image raises, whether the first `img.save` raises
(after `mkstemp` has already created the temporary file), and the resulting
file sizes at each JPEG quality step. -/

/-- Claude raw-image ceiling (vision_client.py). -/
def MAX_IMAGE_SIZE_BYTES : Nat := 3750000

/-- Path of the uploaded image handed to `encode_image`. -/
def origPath : String := "upload.jpg"

/-- Path created by `tempfile.mkstemp(suffix='.jpg', prefix='compressed_')`. -/
def tempPath : String := "compressed_tmp.jpg"

/-- Abstracted per-request image-processing behaviour. -/
structure ImageCase : Type where
  originalSize : Nat
  openFails : Bool
  saveFails : Bool
  sizeAtQuality : Nat → Nat
  aggressiveSize : Nat

/-- Quality steps tried by the compression loop (`85` down to `>= 50`,
step 10). -/
def qualitySteps : List Nat := [85, 75, 65, 55]

/-- First quality step whose saved size fits the ceiling. -/
def firstQualityOk (c : ImageCase) : Option Nat :=
  qualitySteps.find? (fun q => c.sizeAtQuality q ≤ MAX_IMAGE_SIZE_BYTES)

/-- Size of the file at `tempPath` when `compress_image` returns it. -/
def compressedSizeOf (c : ImageCase) : Nat :=
  match firstQualityOk c with
  | some q => c.sizeAtQuality q
  | none => c.aggressiveSize

/-- Embedding of `VisionClient.compress_image` (vision_client.py): returns
the updated filesystem and the chosen path.  An exception inside the `try`
block lands in the `except` branch, which returns the original path without
removing an already-created temporary file. -/
def compress_image (c : ImageCase) (fs : List String) : List String × String :=
  if c.originalSize ≤ MAX_IMAGE_SIZE_BYTES then (fs, origPath)
  else if c.openFails then (fs, origPath)
  else
    let fs1 := tempPath :: fs
    if c.saveFails then (fs1, origPath)
    else (fs1, tempPath)

/-- Length of the base64 encoding of `n` bytes. -/
def base64Len (n : Nat) : Nat := 4 * ((n + 2) / 3)

/-- Embedding of `VisionClient.encode_image` (vision_client.py): compress,
read and base64-encode, raise past 5 MB encoded, and in the `finally` block
unlink the compressed file when (and only when) it differs from the
original path. -/
def encode_image (c : ImageCase) (fs : List String) :
    List String × Except String Unit :=
  let fs1 := (compress_image c fs).1
  let path := (compress_image c fs).2
  let size := if path = origPath then c.originalSize else compressedSizeOf c
  let result : Except String Unit :=
    if base64Len size > 5242880 then
      Except.error "Image still too large after compression"
    else Except.ok ()
  let fs2 := if path = origPath then fs1 else fs1.filter (fun q => q ≠ tempPath)
  (fs2, result)

/-- Embedding of the `TemporaryFile` context manager (file_cleanup.py):
`__enter__` creates the file, the body transforms the filesystem and may
raise, `__exit__` unlinks the path unconditionally. -/
def withTemporaryFile {A : Type} (path : String)
    (body : List String → List String × Except String A)
    (fs : List String) : List String × Except String A :=
  let entered := path :: fs
  let out := body entered
  (out.1.filter (fun q => q ≠ path), out.2)

/-! ## code_commander.extract_citations_from_response -/

/-- Case-insensitive literal matcher (the patterns are compiled with
`re.IGNORECASE`); the literal is given lowercase. -/
def matchLitCI : List Char → List Char → Option (List Char)
  | [], t => some t
  | _, [] => none
  | l :: ls, c :: cs => if pyLowerChar c = l then matchLitCI ls cs else none

/-- Greedy `\s+` followed by nothing else consumable: requires at least one
whitespace character and consumes the maximal run. -/
def wsPlus : List Char → Option (List Char)
  | [] => none
  | c :: cs => if isPySpace c then some (dropLeftWs cs) else none

/-- Greedy `(\d+)` capture: the maximal digit run, nonempty. -/
def digitsCap (t : List Char) : Option (Nat × List Char) :=
  match spanDigits t with
  | ([], _) => none
  | (ds, rest) => some (digitsVal ds, rest)

/-- Pattern `page\s+(\d+)`. -/
def patPage (t : List Char) : Option (Nat × List Char) :=
  (matchLitCI "page".data t).bind wsPlus |>.bind digitsCap

/-- Pattern `p\.\s*(\d+)`. -/
def patPdot (t : List Char) : Option (Nat × List Char) :=
  ((matchLitCI "p.".data t).map dropLeftWs).bind digitsCap

/-- Pattern `p\s+(\d+)`. -/
def patP (t : List Char) : Option (Nat × List Char) :=
  (matchLitCI "p".data t).bind wsPlus |>.bind digitsCap

/-- Pattern `on\s+page\s+(\d+)`. -/
def patOnPage (t : List Char) : Option (Nat × List Char) :=
  ((((matchLitCI "on".data t).bind wsPlus).bind
    (matchLitCI "page".data)).bind wsPlus).bind digitsCap

/-- Pattern `pages?\s+(\d+)`: the optional `s` is preferred, with
backtracking to the bare form. -/
def patPages (t : List Char) : Option (Nat × List Char) :=
  match (matchLitCI "pages".data t).bind wsPlus |>.bind digitsCap with
  | some r => some r
  | none => (matchLitCI "page".data t).bind wsPlus |>.bind digitsCap

/-- Value collection of `re.finditer`: leftmost matches, resuming after each
match's end; every pattern consumes at least one character, so fuel equal to
the text length suffices. -/
def findIterVals (pat : List Char → Option (Nat × List Char)) :
    Nat → List Char → List Nat
  | 0, _ => []
  | _ + 1, [] => []
  | fuel + 1, c :: cs =>
    match pat (c :: cs) with
    | some (v, rest) => v :: findIterVals pat fuel rest
    | none => findIterVals pat fuel cs

/-- Ascending insertion into a sorted list. -/
def insortNat (x : Nat) : List Nat → List Nat
  | [] => [x]
  | y :: ys => if x ≤ y then x :: y :: ys else y :: insortNat x ys

/-- Ascending sort (Python `sorted`). -/
def sortNats (l : List Nat) : List Nat := l.foldr insortNat []

/-- Embedding of the page-mention scan of `extract_citations_from_response`:
all five patterns are run over the reply, numbers outside `1..len(pdf_pages)`
are dropped, and the resulting set is iterated in ascending order. -/
def found_pages (response_text : String) (numPages : Nat) : List Nat :=
  let run := fun pat =>
    findIterVals pat (response_text.data.length + 1) response_text.data
  let vals := run patPage ++ run patPdot ++ run patP ++ run patOnPage ++
    run patPages
  sortNats ((vals.filter (fun v => decide (1 ≤ v) && decide (v ≤ numPages))).dedup)

/-- Sentence split `re.split(r'[.!?]\s+', page_text)`: the separator is one
sentence-ending character followed by a maximal whitespace run. -/
def splitSentencesAux : Nat → List Char → List Char → List (List Char)
  | 0, rest, acc => [acc.reverse ++ rest]
  | _ + 1, [], acc => [acc.reverse]
  | fuel + 1, c :: cs, acc =>
    if c = '.' || c = '!' || c = '?' then
      match cs with
      | d :: _ =>
        if isPySpace d then
          acc.reverse :: splitSentencesAux fuel (dropLeftWs cs) []
        else splitSentencesAux fuel cs (c :: acc)
      | [] => splitSentencesAux fuel cs (c :: acc)
    else splitSentencesAux fuel cs (c :: acc)

/-- Sentences of a page text. -/
def splitSentences (s : String) : List String :=
  (splitSentencesAux (s.data.length + 1) s.data []).map (fun l => ⟨l⟩)

/-- Whitespace-run splitter (Python `str.split()` with no argument: no empty
tokens); `acc` holds the current token reversed. -/
def wsGroupsAux : List Char → List Char → List (List Char)
  | [], acc => if acc.isEmpty then [] else [acc.reverse]
  | c :: cs, acc =>
    if isPySpace c then
      if acc.isEmpty then wsGroupsAux cs [] else acc.reverse :: wsGroupsAux cs []
    else wsGroupsAux cs (c :: acc)

/-- Python `question.split()`. -/
def pySplitWs (s : String) : List String :=
  (wsGroupsAux s.data []).map (fun l => ⟨l⟩)

/-- Single-character splitter keeping empty fields
(Python `str.split('\n')`). -/
def splitOnChar (sep : Char) : List Char → List (List Char)
  | [] => [[]]
  | c :: cs =>
    if c = sep then [] :: splitOnChar sep cs
    else
      match splitOnChar sep cs with
      | [] => [[c]]
      | g :: gs => (c :: g) :: gs

/-- Lines of a page text (Python `page_text.split('\n')`). -/
def splitLines (s : String) : List String :=
  (splitOnChar '\n' s.data).map (fun l => ⟨l⟩)

/-- Question keywords: whitespace-split tokens longer than 3 characters,
lowercased, as a set. -/
def question_keywords (question : String) : List String :=
  (((pySplitWs question).filter (fun w => strLen w > 3)).map pyLower).dedup

/-- Keyword-occurrence score of one sentence (distinct keywords only, since
the keywords form a set). -/
def sentenceScore (kws : List String) (sentence : String) : Nat :=
  kws.countP (fun k => strContains (pyLower sentence) k)

/-- Scoring loop over sentences: keep the first strictly-better-scoring
sentence whose stripped length exceeds 20. -/
def bestSnippetFold (kws : List String) (sentences : List String) :
    Option String × Nat :=
  sentences.foldl (fun st s =>
    if sentenceScore kws s > st.2 && strLen (pyStrip s) > 20 then
      (some (pyStrip s), sentenceScore kws s)
    else st) (none, 0)

/-- Snippet selection for one referenced page: best-scoring long sentence,
else the first long sentence, else the first 300 characters with an ellipsis
when truncated. -/
def pageSnippet (kws : List String) (page_text : String) : String :=
  match (bestSnippetFold kws (splitSentences page_text)).1 with
  | some sn => sn
  | none =>
    match ((splitSentences page_text).find?
        (fun s => strLen (pyStrip s) > 20)).map pyStrip with
    | some sn => sn
    | none =>
      if strLen page_text > 300 then pyStrip (strTake page_text 300) ++ "..."
      else pyStrip (strTake page_text 300)

/-- Python `str.isupper` (ASCII): at least one letter and no lowercase
letter. -/
def pyIsUpper (s : String) : Bool :=
  s.data.any Char.isAlpha && s.data.all (fun c => !c.isLower)

/-- Section/heading guess: among the first 10 lines, the first stripped line
that is all-caps of length 5..100 exclusive, or that starts with a digit and
has a period within its first 10 characters. -/
def sectionOf (page_text : String) : Option String :=
  ((splitLines page_text).take 10).findSome? (fun line =>
    let ls := pyStrip line
    if (pyIsUpper ls && decide (5 < strLen ls) && decide (strLen ls < 100)) ||
        (!ls.isEmpty && ((ls.data.head?.map Char.isDigit).getD false) &&
          strContains (strTake ls 10) ".") then
      some ls
    else none)

/-- Citation record (models code_commander.Citation; `section` is a Lean
keyword, so the field is named `sec`). -/
structure Citation : Type where
  page : Nat
  sec : Option String
  text : String
deriving DecidableEq

/-- Embedding of `extract_citations_from_response` (code_commander.py); the
page map produced by `extract_text` on a whole document has keys `1..n`, so
it is passed as the list of page texts in order. -/
def extract_citations_from_response (response_text : String)
    (pdf_pages : List String) (question : String) : List Citation :=
  (found_pages response_text pdf_pages.length).map (fun p =>
    { page := p
      sec := sectionOf ((pdf_pages.get? (p - 1)).getD "")
      text := strTake (pageSnippet (question_keywords question)
        ((pdf_pages.get? (p - 1)).getD "")) 500 })

/-! ## Shape lemmas for the parsers -/

/-- Case split on the result dict of `parse_risk_analysis_response`. -/
theorem parse_risk_shape (reply : String) :
    parse_risk_analysis_response reply = riskFailDict reply ∨
    parse_risk_analysis_response reply = riskExnDict reply ∨
    (∃ fields items risks, extractRisks items = some risks ∧
      parse_risk_analysis_response reply = riskOkDict fields risks) ∨
    (∃ fields, parse_risk_analysis_response reply = riskOkDict fields []) := by
  unfold parse_risk_analysis_response
  split
  · exact Or.inl rfl
  · split
    · split
      · exact Or.inr (Or.inl rfl)
      · exact Or.inr (Or.inr (Or.inl ⟨_, _, _, by assumption, rfl⟩))
    · exact Or.inr (Or.inr (Or.inr ⟨_, rfl⟩))
  · exact Or.inr (Or.inl rfl)

/-- Case split on the result dict of `parse_compliance_response`. -/
theorem parse_compliance_shape (reply : String) :
    parse_compliance_response reply = complianceFailDict reply ∨
    parse_compliance_response reply = complianceExnDict reply ∨
    (∃ fields items out, extractCompliance items = some out ∧
      parse_compliance_response reply = complianceOkDict fields out) ∨
    (∃ fields, parse_compliance_response reply = complianceOkDict fields []) := by
  unfold parse_compliance_response
  split
  · exact Or.inl rfl
  · split
    · split
      · exact Or.inr (Or.inl rfl)
      · exact Or.inr (Or.inr (Or.inl ⟨_, _, _, by assumption, rfl⟩))
    · exact Or.inr (Or.inr (Or.inr ⟨_, rfl⟩))
  · exact Or.inr (Or.inl rfl)

/-- Case split on the result dict of `parse_schedule_response`. -/
theorem parse_schedule_shape (reply : String) :
    (∃ j, jsonParse (scheduleJsonCandidate reply) = some j ∧
      parse_schedule_response reply =
        [("success", Json.bool true), ("data", j)]) ∨
    (jsonParse (scheduleJsonCandidate reply) = none ∧
      parse_schedule_response reply =
        [("success", Json.bool false),
         ("error", Json.str "JSON parsing error: invalid JSON"),
         ("raw_response", Json.str (strTake reply 1000))]) := by
  unfold parse_schedule_response
  split
  · rename_i j hj
    exact Or.inl ⟨j, hj, rfl⟩
  · rename_i hj
    exact Or.inr ⟨hj, rfl⟩

/-! ## C10: overall_risk_level is never produced -/

/-- C10: for every model reply in the contract-risk analyze endpoint, the
terminal complete event's `overall_risk_level` field is JSON null:
`parse_risk_analysis_response` returns only risks, summary and success (plus
raw_response on failure) and never an `overall_risk_level` key — even when
the model's parsed JSON contains one — so the relay's
`parsed_data.get('overall_risk_level')` always yields `None`. -/
theorem overall_risk_level_always_null (reply : String) :
    dget (parse_risk_analysis_response reply) "overall_risk_level" = none ∧
    dget (contractTerminalEvent reply) "overall_risk_level" = some Json.null := by
  have h1 : dget (parse_risk_analysis_response reply) "overall_risk_level" =
      none := by
    rcases parse_risk_shape reply with h | h | ⟨f, its, rs, hR, h⟩ | ⟨f, h⟩ <;>
      rw [h] <;> rfl
  refine ⟨h1, ?_⟩
  have h2 : dget (contractTerminalEvent reply) "overall_risk_level" =
      some (dgetD (parse_risk_analysis_response reply) "overall_risk_level"
        Json.null) := rfl
  rw [h2]
  unfold dgetD
  rw [h1]
  rfl

/-! ## C5: the confidence estimator -/

/-- Propositional characterization of `calculate_confidence`, matching the
code's if/elif/else chain. -/
theorem calculate_confidence_eq (s : String) :
    calculate_confidence s =
      if strLen (pyStrip s) < 10 then "Low"
      else if uncertainty_score s = 0 ∧ 100 < strLen s then "High"
      else if uncertainty_score s ≤ 2 then "Med"
      else "Low" := by
  unfold calculate_confidence
  by_cases he : s = ""
  · subst he; rfl
  · simp [he, Bool.or_eq_true, Bool.and_eq_true, decide_eq_true_eq]

/-- C5: `calculate_confidence` is a pure deterministic function of the reply
text alone, and follows the documented case order: stripped text shorter than
10 characters yields Low; otherwise a zero hedge score with length over 100
yields High; otherwise score at most 2 yields Med; otherwise Low.  (The four
cases are sequential, mirroring the code's if/elif chain; purity and
determinism are inherent in the functional embedding.) -/
theorem confidence_estimator_cases (s : String) :
    (strLen (pyStrip s) < 10 → calculate_confidence s = "Low") ∧
    (10 ≤ strLen (pyStrip s) → uncertainty_score s = 0 → 100 < strLen s →
      calculate_confidence s = "High") ∧
    (10 ≤ strLen (pyStrip s) → ¬(uncertainty_score s = 0 ∧ 100 < strLen s) →
      uncertainty_score s ≤ 2 → calculate_confidence s = "Med") ∧
    (10 ≤ strLen (pyStrip s) → 2 < uncertainty_score s →
      calculate_confidence s = "Low") := by
  refine ⟨?_, ?_, ?_, ?_⟩ <;> intro h1
  · rw [calculate_confidence_eq, if_pos h1]
  · intro h2 h3
    rw [calculate_confidence_eq, if_neg (by omega), if_pos ⟨h2, h3⟩]
  · intro h2 h3
    rw [calculate_confidence_eq, if_neg (by omega), if_neg h2, if_pos h3]
  · intro h2
    rw [calculate_confidence_eq, if_neg (by omega), if_neg (by omega),
      if_neg (by omega)]

/-- Closed instance of `confidence_estimator_cases`: a long, hedge-free reply
text scores High. -/
def confidenceHighReply : String :=
  "The contract includes a retainage clause of ten percent and a liquidated damages clause with a stated cap value."

theorem confidence_estimator_cases_witness :
    uncertainty_score confidenceHighReply = 0 ∧
    100 < strLen confidenceHighReply ∧
    calculate_confidence confidenceHighReply = "High" :=
  ⟨rfl, by decide,
    (confidence_estimator_cases confidenceHighReply).2.1 (by decide) rfl
      (by decide)⟩

/-! ## C3/C4: retry loop behaviour -/

/-- The retry loop makes at most `fuel` attempts. -/
theorem runAux_attempts_le (outs : Nat → List String × ApiKind) :
    ∀ fuel a d, (runAux outs fuel a d).attempts ≤ fuel := by
  intro fuel
  induction fuel with
  | zero => intro a d; simp [runAux]
  | succ n ih =>
    intro a d
    unfold runAux
    split
    · simp
    · simp
    · split
      · simp
      · simpa using Nat.succ_le_succ (ih (a + 1) _)
    · split
      · simp
      · simpa using Nat.succ_le_succ (ih (a + 1) _)
    · split
      · simp
      · simpa using Nat.succ_le_succ (ih (a + 1) _)

/-- One 429 failure on each of the first two attempts. -/
def outsRate : Nat → List String × ApiKind := fun _ => ([], ApiKind.rate)

/-- Counterexample to C3 as stated: with two consecutive rate limits, the
second back-off sleep is `delay * 2^attempt` with the grown `delay = 2`,
i.e. 4 seconds, not `base_delay * 2^attempt = 2` seconds. -/
theorem backoff_formula_counterexample :
    (stream_completion outsRate).waits = [1, 4] ∧
    base_delay * 2 ^ 1 = 2 ∧ (4 : Nat) ≠ 2 :=
  ⟨rfl, rfl, by decide⟩

/-- C3 (amended): at most 3 attempts; a non-retryable client error aborts
immediately with no sleep; on 429 the sleep is `delay * 2^attempt` where
`delay` starts at `base_delay = 1` and is then set to `min(2*wait, 60)` (so
two 429s sleep 1 s then 4 s); on 5xx the stored delay is not updated (two
5xxs sleep 1 s then 2 s); every sleep is at most 60 s. -/
theorem backoff_policy (outs : Nat → List String × ApiKind) :
    (stream_completion outs).attempts ≤ 3 ∧
    ((outs 0).2 = ApiKind.client →
      (stream_completion outs).attempts = 1 ∧
      (stream_completion outs).waits = [] ∧
      (stream_completion outs).err = some clientErrMsg) ∧
    ((outs 0).2 = ApiKind.rate → (outs 1).2 = ApiKind.rate →
      (stream_completion outs).waits = [1, 4]) ∧
    ((outs 0).2 = ApiKind.server → (outs 1).2 = ApiKind.server →
      (stream_completion outs).waits = [1, 2]) ∧
    (∀ w ∈ (stream_completion outs).waits, w ≤ 60) := by
  refine ⟨runAux_attempts_le outs 3 0 1, ?_, ?_, ?_, ?_⟩
  · intro h0
    simp [stream_completion, max_retries, base_delay, runAux, h0]
  · intro h0 h1
    cases h2 : (outs 2).2 <;>
      simp [stream_completion, max_retries, base_delay, runAux, h0, h1, h2]
  · intro h0 h1
    cases h2 : (outs 2).2 <;>
      simp [stream_completion, max_retries, base_delay, runAux, h0, h1, h2]
  · intro w hw
    cases h0 : (outs 0).2 <;> cases h1 : (outs 1).2 <;> cases h2 : (outs 2).2 <;>
      simp [stream_completion, max_retries, base_delay, runAux, h0, h1, h2]
        at hw <;> omega

theorem backoff_policy_witness :
    (stream_completion (fun _ => ([], ApiKind.client))).attempts = 1 ∧
    (stream_completion outsRate).waits = [1, 4] :=
  ⟨((backoff_policy (fun _ => ([], ApiKind.client))).2.1 rfl).1,
   (backoff_policy outsRate).2.2.1 rfl rfl⟩

/-- First attempt yields a fragment then hits a 429; the retry succeeds. -/
def outsPartial : Nat → List String × ApiKind :=
  fun n => if n = 0 then (["a"], ApiKind.rate) else (["b"], ApiKind.ok)

/-- Counterexample to C4 as stated: the failed first attempt's partial
fragment `"a"` is delivered to the caller (generators yield eagerly), and the
successful retry's output is appended after it. -/
theorem partial_output_counterexample :
    (stream_completion outsPartial).yields = ["a", "b"] ∧
    "a" ∈ (stream_completion outsPartial).yields :=
  ⟨rfl, by decide⟩

/-- C4 (amended): fragments are delivered to the caller as they arrive, so a
failed attempt's partial output has already been delivered when the attempt
fails; a retry re-yields its own fragments after them (possible duplication),
and an error is surfaced only after the final attempt has failed. -/
theorem partial_output_delivery (outs : Nat → List String × ApiKind) :
    ((outs 0).2 = ApiKind.rate → (outs 1).2 = ApiKind.ok →
      (stream_completion outs).yields = (outs 0).1 ++ (outs 1).1 ∧
      (stream_completion outs).err = none) ∧
    ((outs 0).2 = ApiKind.rate → (outs 1).2 = ApiKind.rate →
      (outs 2).2 = ApiKind.rate →
      (stream_completion outs).yields =
        (outs 0).1 ++ ((outs 1).1 ++ (outs 2).1) ∧
      (stream_completion outs).err = some rateLimitMsg) := by
  constructor
  · intro h0 h1
    simp [stream_completion, max_retries, base_delay, runAux, h0, h1]
  · intro h0 h1 h2
    simp [stream_completion, max_retries, base_delay, runAux, h0, h1, h2]

theorem partial_output_delivery_witness :
    (stream_completion outsPartial).yields = ["a"] ++ ["b"] ∧
    (stream_completion outsPartial).err = none :=
  (partial_output_delivery outsPartial).1 rfl rfl

/-! ## C9: temp-file lifecycle -/

/-- The `TemporaryFile` context manager always removes its file. -/
theorem withTemporaryFile_cleanup {A : Type} (path : String)
    (body : List String → List String × Except String A) (fs : List String) :
    path ∉ (withTemporaryFile path body fs).1 := by
  simp [withTemporaryFile, List.mem_filter]

/-- Oversized image whose first `img.save` raises after the compression temp
file has been created. -/
def leakCase : ImageCase :=
  { originalSize := 3800000
    openFails := false
    saveFails := true
    sizeAtQuality := fun _ => 0
    aggressiveSize := 0 }

/-- C9 (failing input): when compression fails after `mkstemp`, the `except`
branch of `compress_image` returns the original path without unlinking the
temporary file, and `encode_image`'s `finally` block (which only unlinks a
path differing from the original) leaves it on disk, even though the request
itself completes. -/
theorem compress_leak_failing_input :
    (encode_image leakCase [origPath]).1 = [tempPath, origPath] ∧
    tempPath ∈ (encode_image leakCase [origPath]).1 ∧
    (encode_image leakCase [origPath]).2 = Except.ok () := by
  refine ⟨rfl, ?_, rfl⟩
  decide

/-! ## C1: terminal events on unparseable replies -/

/-- A failed risk parse always carries a string summary. -/
theorem risk_failure_summary (reply : String)
    (hr : dget (parse_risk_analysis_response reply) "success" =
      some (Json.bool false)) :
    ∃ t, dget (parse_risk_analysis_response reply) "summary" =
      some (Json.str t) := by
  rcases parse_risk_shape reply with h | h | ⟨f, its, rs, hR, h⟩ | ⟨f, h⟩
  · exact ⟨_, by rw [h]; rfl⟩
  · exact ⟨_, by rw [h]; rfl⟩
  · rw [h] at hr
    rw [show dget (riskOkDict f rs) "success" = some (Json.bool true) from rfl]
      at hr
    simp at hr
  · rw [h] at hr
    rw [show dget (riskOkDict f []) "success" = some (Json.bool true) from rfl]
      at hr
    simp at hr

/-- A failed compliance parse always carries a string summary. -/
theorem compliance_failure_summary (reply : String)
    (hc : dget (parse_compliance_response reply) "success" =
      some (Json.bool false)) :
    ∃ t, dget (parse_compliance_response reply) "summary" =
      some (Json.str t) := by
  rcases parse_compliance_shape reply with h | h | ⟨f, its, os, hR, h⟩ | ⟨f, h⟩
  · exact ⟨_, by rw [h]; rfl⟩
  · exact ⟨_, by rw [h]; rfl⟩
  · rw [h] at hc
    rw [show dget (complianceOkDict f os) "success" = some (Json.bool true)
      from rfl] at hc
    simp at hc
  · rw [h] at hc
    rw [show dget (complianceOkDict f []) "success" = some (Json.bool true)
      from rfl] at hc
    simp at hc

/-- The model reply that the lookahead stream cannot parse. -/
def noJsonReply : String := "I cannot analyze these images."

/-- Counterexample to C1 as stated: the schedule task's relay does NOT emit a
terminal `complete` event when the reply holds no recoverable JSON — it emits
an `error` event (lookahead_builder.py lines 382-386). -/
theorem schedule_error_event_counterexample :
    dget (parse_schedule_response noJsonReply) "success" =
      some (Json.bool false) ∧
    dget (lookaheadTerminalEvent noJsonReply) "type" =
      some (Json.str "error") ∧
    Json.str "error" ≠ Json.str "complete" :=
  ⟨rfl, rfl, by simp⟩

/-- C1 (amended): on a reply with no recoverable JSON, the contract-risk and
submittal relays emit a terminal `complete` event carrying `success=false`
and a best-effort string summary (and no exception escapes: the parsers are
total); the schedule relay instead emits a terminal `error` event. -/
theorem parse_failure_still_terminates (reply : String) (hne : reply ≠ "")
    (hr : dget (parse_risk_analysis_response reply) "success" =
      some (Json.bool false))
    (hc : dget (parse_compliance_response reply) "success" =
      some (Json.bool false))
    (hs : dget (parse_schedule_response reply) "success" =
      some (Json.bool false)) :
    dget (contractTerminalEvent reply) "type" = some (Json.str "complete") ∧
    dget (contractTerminalEvent reply) "success" = some (Json.bool false) ∧
    (∃ t, dget (contractTerminalEvent reply) "summary" =
      some (Json.str t)) ∧
    dget (submittalTerminalEvent reply) "type" = some (Json.str "complete") ∧
    dget (submittalTerminalEvent reply) "success" = some (Json.bool false) ∧
    (∃ t, dget (submittalTerminalEvent reply) "summary" =
      some (Json.str t)) ∧
    dget (lookaheadTerminalEvent reply) "type" = some (Json.str "error") := by
  refine ⟨rfl, ?_, ?_, rfl, ?_, ?_, ?_⟩
  · rw [show dget (contractTerminalEvent reply) "success" =
      some (dgetD (parse_risk_analysis_response reply) "success"
        (Json.bool true)) from rfl]
    unfold dgetD
    rw [hr]
    rfl
  · obtain ⟨t, ht⟩ := risk_failure_summary reply hr
    refine ⟨t, ?_⟩
    rw [show dget (contractTerminalEvent reply) "summary" =
      some (dgetD (parse_risk_analysis_response reply) "summary"
        (Json.str "")) from rfl]
    unfold dgetD
    rw [ht]
    rfl
  · rw [show dget (submittalTerminalEvent reply) "success" =
      some (dgetD (parse_compliance_response reply) "success"
        (Json.bool true)) from rfl]
    unfold dgetD
    rw [hc]
    rfl
  · obtain ⟨t, ht⟩ := compliance_failure_summary reply hc
    refine ⟨t, ?_⟩
    rw [show dget (submittalTerminalEvent reply) "summary" =
      some (dgetD (parse_compliance_response reply) "summary"
        (Json.str "")) from rfl]
    unfold dgetD
    rw [ht]
    rfl
  · unfold lookaheadTerminalEvent
    rw [if_neg hne, hs]
    rfl

/-- A reply with no braces, fences or JSON at all. -/
def plainReply : String := "no json content here at all"

theorem parse_failure_still_terminates_witness :
    dget (contractTerminalEvent plainReply) "success" =
      some (Json.bool false) ∧
    dget (lookaheadTerminalEvent plainReply) "type" =
      some (Json.str "error") :=
  ⟨(parse_failure_still_terminates plainReply (by decide) rfl rfl rfl).2.1,
   (parse_failure_still_terminates plainReply
     (by decide) rfl rfl rfl).2.2.2.2.2.2⟩

/-! ## C2: recovery-strategy selection -/

/-- Reply putting parseable JSON before a fenced block whose body is invalid. -/
def mixedReply : String := "\x7b\"a\": 1\x7d ```json\n\x7bbad\x7d\n```"

/-- Counterexample to C2 as stated: on `mixedReply` the fenced-block step
yields candidate text whose structured parse fails, yet the parser does not
fall through to the next step (whose candidate, the first balanced braced
span, parses fine) — it returns the failure result. -/
theorem strategy_no_fallthrough_counterexample :
    fencedJsonBlock mixedReply = some "\x7bbad\x7d" ∧
    jsonParse "\x7bbad\x7d" = none ∧
    scheduleJsonCandidate mixedReply = "\x7bbad\x7d" ∧
    dget (parse_schedule_response mixedReply) "success" =
      some (Json.bool false) ∧
    strFind mixedReply "\x7b" = some 0 ∧
    braceSpanFrom mixedReply 0 = some "\x7b\"a\": 1\x7d" ∧
    jsonParse "\x7b\"a\": 1\x7d" = some (Json.obj [("a", Json.num 1)]) :=
  ⟨rfl, rfl, rfl, rfl, rfl, rfl, rfl⟩

/-- C2 (amended): each parser selects a single candidate in its own fixed
priority order — the fenced block first in all three, then the parser's own
anchored/brace-counting steps, then the whole reply — and attempts exactly
one structured parse on it; when that parse fails the parser returns the
`success=false` result without attempting any later step. -/
theorem strategy_selection (r g : String) :
    (fencedJsonBlock r = some g →
      riskJsonCandidate r = g ∧ complianceJsonCandidate r = g ∧
      scheduleJsonCandidate r = g) ∧
    (fencedJsonBlock r = none → risksSpan r = some g →
      riskJsonCandidate r = g) ∧
    (fencedJsonBlock r = none → risksSpan r = none →
      riskJsonCandidate r = r) ∧
    (jsonParse (riskJsonCandidate r) = none →
      dget (parse_risk_analysis_response r) "success" =
        some (Json.bool false)) ∧
    (jsonParse (complianceJsonCandidate r) = none →
      dget (parse_compliance_response r) "success" =
        some (Json.bool false)) ∧
    (jsonParse (scheduleJsonCandidate r) = none →
      dget (parse_schedule_response r) "success" =
        some (Json.bool false)) := by
  refine ⟨?_, ?_, ?_, ?_, ?_, ?_⟩
  · intro h
    refine ⟨?_, ?_, ?_⟩
    · unfold riskJsonCandidate
      rw [h]
    · unfold complianceJsonCandidate
      rw [h]
    · unfold scheduleJsonCandidate
      rw [h]
  · intro h1 h2
    unfold riskJsonCandidate
    rw [h1, h2]
  · intro h1 h2
    unfold riskJsonCandidate
    rw [h1, h2]
  · intro h
    unfold parse_risk_analysis_response
    rw [h]
    rfl
  · intro h
    unfold parse_compliance_response
    rw [h]
    rfl
  · intro h
    unfold parse_schedule_response
    rw [h]
    rfl

theorem strategy_selection_witness :
    riskJsonCandidate mixedReply = "\x7bbad\x7d" ∧
    dget (parse_risk_analysis_response plainReply) "success" =
      some (Json.bool false) :=
  ⟨((strategy_selection mixedReply "\x7bbad\x7d").1 rfl).1,
   (strategy_selection plainReply "").2.2.2.1 rfl⟩

/-! ## C6: severity clamping and status normalization -/

/-- Every risk item kept by the validation loop carries a severity clamped
into `[1, 5]`. -/
theorem extractRisks_bounds :
    ∀ items out, extractRisks items = some out →
      ∀ item ∈ out, ∃ f n, item = Json.obj f ∧
        jGet f "severity" = some (Json.num n) ∧ 1 ≤ n ∧ n ≤ 5 := by
  intro items
  induction items with
  | nil =>
    intro out h item hm
    simp only [extractRisks, Option.some.injEq] at h
    subst h
    simp at hm
  | cons it rest ih =>
    intro out h item hm
    cases it with
    | obj f =>
      simp only [extractRisks] at h
      split at h
      · split at h
        · exact absurd h (by simp)
        · split at h
          · exact absurd h (by simp)
          · simp only [Option.some.injEq] at h
            subst h
            rcases List.mem_cons.mp hm with rfl | hmem
            · refine ⟨_, _, rfl, rfl, ?_, ?_⟩ <;> omega
            · exact ih _ (by assumption) item hmem
      · exact ih out h item hm
    | null => exact ih out (by simpa [extractRisks] using h) item hm
    | bool b => exact ih out (by simpa [extractRisks] using h) item hm
    | num n => exact ih out (by simpa [extractRisks] using h) item hm
    | str s => exact ih out (by simpa [extractRisks] using h) item hm
    | arr l => exact ih out (by simpa [extractRisks] using h) item hm

/-- The status normalization always lands in the closed set. -/
theorem normStatus_mem (st : String) :
    normStatus st = "pass" ∨ normStatus st = "warn" ∨
      normStatus st = "fail" := by
  unfold normStatus
  split_ifs with h1 h2 h3 h4
  · simp only [Bool.or_eq_true, decide_eq_true_eq] at h1
    tauto
  · exact Or.inl rfl
  · exact Or.inr (Or.inl rfl)
  · exact Or.inr (Or.inr rfl)
  · exact Or.inr (Or.inl rfl)

/-- Every compliance item kept by the validation loop carries a status in
`{pass, warn, fail}`. -/
theorem extractCompliance_bounds :
    ∀ items out, extractCompliance items = some out →
      ∀ item ∈ out, ∃ f st, item = Json.obj f ∧
        jGet f "status" = some (Json.str st) ∧
        (st = "pass" ∨ st = "warn" ∨ st = "fail") := by
  intro items
  induction items with
  | nil =>
    intro out h item hm
    simp only [extractCompliance, Option.some.injEq] at h
    subst h
    simp at hm
  | cons it rest ih =>
    intro out h item hm
    cases it with
    | obj f =>
      simp only [extractCompliance] at h
      split at h
      · split at h
        · split at h
          · exact absurd h (by simp)
          · simp only [Option.some.injEq] at h
            subst h
            rcases List.mem_cons.mp hm with rfl | hmem
            · exact ⟨_, _, rfl, rfl, normStatus_mem _⟩
            · exact ih _ (by assumption) item hmem
        · exact absurd h (by simp)
      · exact ih out h item hm
    | null => exact ih out (by simpa [extractCompliance] using h) item hm
    | bool b => exact ih out (by simpa [extractCompliance] using h) item hm
    | num n => exact ih out (by simpa [extractCompliance] using h) item hm
    | str s => exact ih out (by simpa [extractCompliance] using h) item hm
    | arr l => exact ih out (by simpa [extractCompliance] using h) item hm

/-- Reply whose fenced JSON contains a compliance item with the status
`partial pass` (outside the closed set, containing both `pass` and
`partial`). -/
def partialPassReply : String :=
  "```json\n\x7b\"compliance_items\": [\x7b\"requirement\": \"r\", \"status\": \"partial pass\"\x7d], \"summary\": \"s\"\x7d\n```"

/-- Counterexample to C6 as stated: a status containing `partial` does NOT
always map to `warn` — the substring checks run in priority order, and
`pass`/`meet` are tested first, so `partial pass` maps to `pass`. -/
theorem partial_status_counterexample :
    strContains (pyLower "partial pass") "partial" = true ∧
    dget (parse_compliance_response partialPassReply) "compliance_items" =
      some (Json.arr [Json.obj
        [("requirement", Json.str "r"), ("spec_text", Json.str ""),
         ("product_text", Json.str ""), ("status", Json.str "pass"),
         ("notes", Json.null)]]) ∧
    ("pass" : String) ≠ "warn" :=
  ⟨rfl, rfl, by decide⟩

/-- C6 (amended): every parsed risk item's numeric severity is clamped into
`[1, 5]`; every parsed compliance item's status lies in `{pass, warn, fail}`,
produced by substring heuristics applied in priority order (`pass`/`meet`
first, then `warn`/`partial`/`unclear`, then `fail`/`not`) and defaulting to
`warn` when no keyword matches.  A status containing `partial` or `unclear`
maps to `warn` only when it does not also contain `pass` or `meet`. -/
theorem severity_status_normalization (reply : String) :
    (∀ risks, dget (parse_risk_analysis_response reply) "risks" =
        some (Json.arr risks) →
      ∀ item ∈ risks, ∃ f n, item = Json.obj f ∧
        jGet f "severity" = some (Json.num n) ∧ 1 ≤ n ∧ n ≤ 5) ∧
    (∀ items, dget (parse_compliance_response reply) "compliance_items" =
        some (Json.arr items) →
      ∀ item ∈ items, ∃ f st, item = Json.obj f ∧
        jGet f "status" = some (Json.str st) ∧
        (st = "pass" ∨ st = "warn" ∨ st = "fail")) ∧
    (∀ st : String, normStatus st = "pass" ∨ normStatus st = "warn" ∨
      normStatus st = "fail") ∧
    (∀ st : String, ¬(st = "pass" ∨ st = "warn" ∨ st = "fail") →
      (strContains st "pass" || strContains st "meet") = false →
      (strContains st "warn" || strContains st "partial" ||
        strContains st "unclear") = true →
      normStatus st = "warn") ∧
    (∀ n : Int, 1 ≤ max 1 (min 5 n) ∧ max 1 (min 5 n) ≤ 5) := by
  refine ⟨?_, ?_, normStatus_mem, ?_, fun n => ⟨by omega, by omega⟩⟩
  · intro risks hr item hm
    rcases parse_risk_shape reply with h | h | ⟨f, its, rs, hR, h⟩ | ⟨f, h⟩
    · rw [h] at hr
      rw [show dget (riskFailDict reply) "risks" = some (Json.arr []) from rfl]
        at hr
      simp only [Option.some.injEq, Json.arr.injEq] at hr
      subst hr
      simp at hm
    · rw [h] at hr
      rw [show dget (riskExnDict reply) "risks" = some (Json.arr []) from rfl]
        at hr
      simp only [Option.some.injEq, Json.arr.injEq] at hr
      subst hr
      simp at hm
    · rw [h] at hr
      rw [show dget (riskOkDict f rs) "risks" = some (Json.arr rs) from rfl]
        at hr
      simp only [Option.some.injEq, Json.arr.injEq] at hr
      subst hr
      exact extractRisks_bounds its _ hR item hm
    · rw [h] at hr
      rw [show dget (riskOkDict f []) "risks" = some (Json.arr []) from rfl]
        at hr
      simp only [Option.some.injEq, Json.arr.injEq] at hr
      subst hr
      simp at hm
  · intro items hc item hm
    rcases parse_compliance_shape reply with h | h | ⟨f, its, os, hR, h⟩ | ⟨f, h⟩
    · rw [h] at hc
      rw [show dget (complianceFailDict reply) "compliance_items" =
        some (Json.arr []) from rfl] at hc
      simp only [Option.some.injEq, Json.arr.injEq] at hc
      subst hc
      simp at hm
    · rw [h] at hc
      rw [show dget (complianceExnDict reply) "compliance_items" =
        some (Json.arr []) from rfl] at hc
      simp only [Option.some.injEq, Json.arr.injEq] at hc
      subst hc
      simp at hm
    · rw [h] at hc
      rw [show dget (complianceOkDict f os) "compliance_items" =
        some (Json.arr os) from rfl] at hc
      simp only [Option.some.injEq, Json.arr.injEq] at hc
      subst hc
      exact extractCompliance_bounds its _ hR item hm
    · rw [h] at hc
      rw [show dget (complianceOkDict f []) "compliance_items" =
        some (Json.arr []) from rfl] at hc
      simp only [Option.some.injEq, Json.arr.injEq] at hc
      subst hc
      simp at hm
  · intro st h1 h2 h3
    have h1' : ¬((st = "pass" || st = "warn" || st = "fail") = true) := by
      simp only [Bool.or_eq_true, decide_eq_true_eq]
      tauto
    unfold normStatus
    rw [if_neg h1', if_neg (by simp [h2]), if_pos h3]

/-- Reply whose fenced JSON contains a risk item with severity 99. -/
def severity99Reply : String :=
  "```json\n\x7b\"risks\": [\x7b\"clause\": \"c\", \"severity\": 99, \"explanation\": \"e\"\x7d], \"summary\": \"s\"\x7d\n```"

theorem severity_status_normalization_witness :
    ∃ f n, Json.obj [("clause", Json.str "c"), ("severity", Json.num 5),
      ("explanation", Json.str "e")] = Json.obj f ∧
      jGet f "severity" = some (Json.num n) ∧ 1 ≤ n ∧ n ≤ 5 :=
  (severity_status_normalization severity99Reply).1
    [Json.obj [("clause", Json.str "c"), ("severity", Json.num 5),
      ("explanation", Json.str "e")]] rfl _ (List.mem_singleton.mpr rfl)

/-! ## C8: page-range extraction -/

/-- Lookup by `find?` over a list keyed `i+1` with key-determined values. -/
theorem find?_map_keyed (g : Nat → String) (l : List Nat) (n : Nat) :
    (l.map (fun i => (i + 1, g i))).find? (fun q => q.1 = n) =
      (l.find? (fun i => i + 1 = n)).map (fun i => (i + 1, g i)) := by
  induction l with
  | nil => rfl
  | cons a t ih =>
    by_cases h : a + 1 = n
    · rw [List.map_cons, List.find?_cons_of_pos _ (by simpa using h),
        List.find?_cons_of_pos _ (by simpa using h), Option.map_some']
    · rw [List.map_cons, List.find?_cons_of_neg _ (by simpa using h),
        List.find?_cons_of_neg _ (by simpa using h), ih]

/-- When some element of `l` has successor `n`, the first such element found
is `n - 1` (the key determines the element). -/
theorem find?_key_unique (l : List Nat) (n : Nat) (h : ∃ i ∈ l, i + 1 = n) :
    l.find? (fun i => i + 1 = n) = some (n - 1) := by
  induction l with
  | nil => simp at h
  | cons a t ih =>
    by_cases ha : a + 1 = n
    · rw [List.find?_cons_of_pos _ (by simpa using ha)]
      simp only [Option.some.injEq]
      omega
    · rw [List.find?_cons_of_neg _ (by simpa using ha)]
      apply ih
      rcases h with ⟨i, hi, hin⟩
      rcases List.mem_cons.mp hi with rfl | hm
      · exact absurd hin ha
      · exact ⟨i, hm, hin⟩

/-- C8: `extract_text` with a page range never fails because of out-of-range
page numbers (they are silently dropped, and extraction still succeeds), the
output map is 1-indexed — for every requested in-range page `p` the map at
key `p` holds the text of document page `p` — and every key of the output map
is an in-range 1-indexed page number. -/
theorem extract_text_page_range (doc : List String) (r : List Int) :
    (extract_text doc (some r)).success = true ∧
    (∀ p : Int, p ∈ r → 1 ≤ p → p ≤ (doc.length : Int) →
      ptGet (extract_text doc (some r)).page_texts p.toNat =
        doc.get? (p.toNat - 1)) ∧
    (∀ q ∈ (extract_text doc (some r)).page_texts,
      1 ≤ q.1 ∧ q.1 ≤ doc.length) := by
  refine ⟨rfl, ?_, ?_⟩
  · intro p hp h1 h2
    have hmem : (p - 1).toNat ∈ r.filterMap (fun p =>
        if 1 ≤ p ∧ p ≤ (doc.length : Int) then some (p - 1).toNat else none) :=
      List.mem_filterMap.mpr ⟨p, hp, by rw [if_pos ⟨h1, h2⟩]⟩
    have key : (r.filterMap (fun p =>
        if 1 ≤ p ∧ p ≤ (doc.length : Int) then some (p - 1).toNat
        else none)).reverse.find? (fun i => i + 1 = p.toNat) =
          some (p.toNat - 1) :=
      find?_key_unique _ _ ⟨(p - 1).toNat, List.mem_reverse.mpr hmem, by omega⟩
    show ptGet ((r.filterMap (fun p =>
      if 1 ≤ p ∧ p ≤ (doc.length : Int) then some (p - 1).toNat
      else none)).map (fun i => (i + 1, (doc.get? i).getD ""))) p.toNat =
        doc.get? (p.toNat - 1)
    unfold ptGet
    rw [← List.map_reverse, find?_map_keyed, key]
    have hlt : p.toNat - 1 < doc.length := by omega
    cases hget : doc.get? (p.toNat - 1) with
    | none => exact absurd (List.get?_eq_none.mp hget) (by omega)
    | some t =>
      rw [List.get?_eq_getElem?] at hget
      simp [hget]
  · intro q hq
    have hq' : q ∈ (r.filterMap (fun p =>
        if 1 ≤ p ∧ p ≤ (doc.length : Int) then some (p - 1).toNat
        else none)).map (fun i => (i + 1, (doc.get? i).getD "")) := hq
    obtain ⟨i, hiL, rfl⟩ := List.mem_map.mp hq'
    obtain ⟨p, hpr, hfp⟩ := List.mem_filterMap.mp hiL
    by_cases hcond : 1 ≤ p ∧ p ≤ (doc.length : Int)
    · rw [if_pos hcond] at hfp
      simp only [Option.some.injEq] at hfp
      subst hfp
      constructor
      · omega
      · simp only []
        omega
    · rw [if_neg hcond] at hfp
      cases hfp

/-- A 3-page document for the closed page-range instance. -/
def docW : List String := ["alpha text", "beta text", "gamma text"]

theorem extract_text_page_range_witness :
    (extract_text docW (some [2, 7, 0])).success = true ∧
    ptGet (extract_text docW (some [2, 7, 0])).page_texts 2 =
      some "beta text" :=
  ⟨(extract_text_page_range docW [2, 7, 0]).1,
   (extract_text_page_range docW [2, 7, 0]).2.1 2 (by decide) (by decide)
     (by decide)⟩

/-! ## C7: citation snippet selection -/

/-- The scoring loop ignores zero-scoring sentences (a score of 0 is never
strictly greater than the best score so far). -/
theorem bestFold_zeros (kws : List String) (l : List String)
    (h : ∀ s ∈ l, sentenceScore kws s = 0) (st : Option String × Nat) :
    l.foldl (fun st s =>
      if sentenceScore kws s > st.2 && strLen (pyStrip s) > 20 then
        (some (pyStrip s), sentenceScore kws s)
      else st) st = st := by
  induction l generalizing st with
  | nil => rfl
  | cons a t ih =>
    have ha : sentenceScore kws a = 0 := h a (by simp)
    rw [List.foldl_cons, if_neg (by
      simp only [ha, Bool.and_eq_true, decide_eq_true_eq]
      rintro ⟨h0, _⟩
      omega)]
    exact ih (fun s hs => h s (List.mem_cons_of_mem _ hs)) st

/-- When exactly one sentence scores (and is long enough), the scoring loop
selects it. -/
theorem bestFold_unique (kws : List String) (pre post : List String)
    (sent : String) (hpre : ∀ s ∈ pre, sentenceScore kws s = 0)
    (hpost : ∀ s ∈ post, sentenceScore kws s = 0)
    (hscore : 0 < sentenceScore kws sent)
    (hlen : 20 < strLen (pyStrip sent)) :
    bestSnippetFold kws (pre ++ sent :: post) =
      (some (pyStrip sent), sentenceScore kws sent) := by
  unfold bestSnippetFold
  rw [List.foldl_append, bestFold_zeros kws pre hpre, List.foldl_cons,
    if_pos (by
      simp only [Bool.and_eq_true, decide_eq_true_eq]
      exact ⟨hscore, hlen⟩)]
  exact bestFold_zeros kws post hpost _

/-- C7 (amended): for a reply that mentions page `p` (within the valid
range), when the question's keywords occur in exactly one sentence of that
page and that sentence's stripped length exceeds 20 characters, the citation
for page `p` carries the first 500 characters of that stripped sentence as
its snippet. -/
theorem citation_unique_sentence (reply question : String)
    (pages : List String) (p : Nat)
    (hp : p ∈ found_pages reply pages.length)
    (pre post : List String) (sent : String)
    (hsplit : splitSentences ((pages.get? (p - 1)).getD "") =
      pre ++ sent :: post)
    (hpre : ∀ s ∈ pre, sentenceScore (question_keywords question) s = 0)
    (hpost : ∀ s ∈ post, sentenceScore (question_keywords question) s = 0)
    (hscore : 0 < sentenceScore (question_keywords question) sent)
    (hlen : 20 < strLen (pyStrip sent)) :
    ∃ c ∈ extract_citations_from_response reply pages question,
      c.page = p ∧ c.text = strTake (pyStrip sent) 500 := by
  have hsnip : pageSnippet (question_keywords question)
      ((pages.get? (p - 1)).getD "") = pyStrip sent := by
    unfold pageSnippet
    rw [hsplit, bestFold_unique (question_keywords question) pre post sent
      hpre hpost hscore hlen]
  refine ⟨{ page := p
            sec := sectionOf ((pages.get? (p - 1)).getD "")
            text := strTake (pageSnippet (question_keywords question)
              ((pages.get? (p - 1)).getD "")) 500 }, ?_, rfl, ?_⟩
  · unfold extract_citations_from_response
    exact List.mem_map_of_mem _ hp
  · simp only [hsnip]

/-- Page whose unique keyword-bearing sentence is 20 characters or shorter. -/
def uniqueShortPage : String :=
  "See foundation. Another sentence here with more words."

def foundationQuestion : String := "where is the foundation"

/-- Counterexample to C7 as stated: the question's keywords occur in exactly
one sentence of the referenced page (`See foundation`, score 1, the other
sentence scores 0), yet that sentence is NOT selected — its stripped length
is only 14, below the `> 20` guard, so the fallback picks the other
sentence. -/
theorem short_sentence_counterexample :
    question_keywords foundationQuestion = ["where", "foundation"] ∧
    sentenceScore (question_keywords foundationQuestion) "See foundation" = 1 ∧
    sentenceScore (question_keywords foundationQuestion)
      "Another sentence here with more words." = 0 ∧
    splitSentences uniqueShortPage =
      ["See foundation", "Another sentence here with more words."] ∧
    extract_citations_from_response "on page 1" [uniqueShortPage]
      foundationQuestion =
      [⟨1, none, "Another sentence here with more words."⟩] ∧
    ("Another sentence here with more words." : String) ≠ "See foundation" :=
  ⟨rfl, rfl, rfl, rfl, rfl, by decide⟩

/-- Page whose unique keyword-bearing sentence is long enough. -/
def uniqueLongPage : String :=
  "The foundation is located on the north side. Other text here."

theorem citation_unique_sentence_witness :
    ∃ c ∈ extract_citations_from_response "see page 1" [uniqueLongPage]
        foundationQuestion,
      c.page = 1 ∧
      c.text =
        strTake (pyStrip "The foundation is located on the north side") 500 :=
  citation_unique_sentence "see page 1" foundationQuestion [uniqueLongPage] 1
    (by decide) [] ["Other text here."]
    "The foundation is located on the north side" rfl (by simp) (by decide)
    (by decide) (by decide)
